import Mathlib

/-!
Shallow embedding of the pseudo-machine lowering pass of the mcc compiler
(src/codegen/x86_pass.rs), with proofs about its documented behaviour.

Rust enums become inductive types; the mutable StackFrame is threaded
explicitly through each function; the mutable output vector OpVec becomes
the list of emitted instructions returned alongside the updated frame.
The operand/instruction types live in the assembly module, which is not
part of the snapshot; their constructors are reconstructed from every use
in x86_pass.rs and from the data model of the design document (immediate,
hardware register, stack slot; the pseudo and x86 instruction sets).
-/

namespace Mcc

/-- Hardware registers used by the lowering pass (assembly::Register). -/
inductive Register
  | Ax
  | Cx
  | Dx
  | R10
  | R11
  deriving DecidableEq

/-- Concrete x86 operands (assembly::Op): an immediate constant, a hardware
register, or a stack slot identified by a byte offset. -/
inductive Op
  | Imm (value : Int)
  | Register (r : Mcc.Register)
  | Stack (offset : Nat)
  deriving DecidableEq

/-- Identifiers are content-compared byte strings (Rc<Identifier> hashes and
compares by content). -/
abbrev Identifier := String

/-- Pre-lowering operands (assembly::PseudoOp): a concrete operand or a
symbolic register naming an Identifier. -/
inductive PseudoOp
  | Normal (op : Op)
  | PseudoRegister (name : Identifier)
  deriving DecidableEq

/-- Binary operators (super::Binary). -/
inductive Binary
  | Add
  | Sub
  | Mult
  | And
  | Xor
  | Or
  | ShiftLeft
  | ShiftRight
  deriving DecidableEq

/-- Unary operators carried through the pass unchanged. -/
inductive UnaryOp
  | Neg
  | Not
  deriving DecidableEq

/-- Condition codes carried by JmpCC and SetCC. -/
inductive Condition
  | E
  | NE
  | G
  | GE
  | L
  | LE
  deriving DecidableEq

/-- Pseudo-instructions (assembly::Pseudo): operands may be symbolic. -/
inductive Pseudo
  | Mov (src dst : PseudoOp)
  | Unary (operator : UnaryOp) (operand : PseudoOp)
  | Binary (operator : Mcc.Binary) (op dst_op : PseudoOp)
  | Idiv (divisor : PseudoOp)
  | Cdq
  | AllocateStack (n : Nat)
  | DeallocateStack (bytes : Nat)
  | Push (val : PseudoOp)
  | Call (name : Identifier)
  | Ret
  | Cmp (left right : PseudoOp)
  | Jmp (label : Identifier)
  | JmpCC (condition : Condition) (label : Identifier)
  | SetCC (condition : Condition) (op : PseudoOp)
  | Label (name : Identifier)
  deriving DecidableEq

/-- Real x86 instructions (assembly::X86): every operand concrete. -/
inductive X86
  | Mov (src dst : Op)
  | Unary (operator : UnaryOp) (operand : Op)
  | Binary (operator : Mcc.Binary) (op dst_op : Op)
  | Idiv (divisor : Op)
  | Cdq
  | AllocateStack (n : Nat)
  | DeallocateStack (bytes : Nat)
  | Push (val : Op)
  | Call (name : Identifier)
  | Ret
  | Cmp (left right : Op)
  | Jmp (label : Identifier)
  | JmpCC (condition : Condition) (label : Identifier)
  | SetCC (condition : Condition) (op : Op)
  | Label (name : Identifier)
  deriving DecidableEq

/-- X86::mov constructor helper. -/
def X86.mov (src dst : Op) : X86 := X86.Mov src dst

/-- X86::cmp constructor helper. -/
def X86.cmp (left right : Op) : X86 := X86.Cmp left right

/-- X86::binary constructor helper. -/
def X86.binary (operator : Mcc.Binary) (op dst_op : Op) : X86 :=
  X86.Binary operator op dst_op

/-- HashMap<Rc<Identifier>, usize> lookup, embedded as association-list
lookup keyed by content equality. -/
def lookupId : List (Identifier × Nat) → Identifier → Option Nat
  | [], _ => none
  | (k, v) :: rest, x => if x = k then some v else lookupId rest x

/-- The per-function slot allocator (struct StackFrame). -/
structure StackFrame where
  map : List (Identifier × Nat)
  size : Nat
  push_offset : Nat
  deriving DecidableEq

/-- StackFrame::new. -/
def StackFrame.new (offset : Nat) : StackFrame :=
  { map := [], size := offset, push_offset := 0 }

/-- StackFrame::record_push. -/
def StackFrame.record_push (f : StackFrame) : StackFrame :=
  { f with push_offset := f.push_offset + 8 }

/-- StackFrame::record_pop (usize subtraction, never invoked by the pass). -/
def StackFrame.record_pop (f : StackFrame) : StackFrame :=
  { f with push_offset := f.push_offset - 8 }

/-- StackFrame::get: return the recorded offset for a seen identifier;
otherwise grow the frame by 4, record the new offset, and return it plus
the outstanding push offset. -/
def StackFrame.get (f : StackFrame) (ident : Identifier) : Nat × StackFrame :=
  match lookupId f.map ident with
  | some offset => (offset, f)
  | none =>
      let size := f.size + 4
      (size + f.push_offset,
        { f with size := size, map := (ident, size) :: f.map })

/-- StackFrame::fix_by_name. -/
def StackFrame.fix_by_name (f : StackFrame) (name : Identifier) :
    Op × StackFrame :=
  let r := f.get name
  (Op.Stack r.1, r.2)

/-- StackFrame::fix_operand. -/
def StackFrame.fix_operand (f : StackFrame) (operand : PseudoOp) :
    Op × StackFrame :=
  match operand with
  | .Normal o => (o, f)
  | .PseudoRegister name => f.fix_by_name name

/-- StackFrame::rounded_size. -/
def StackFrame.rounded_size (f : StackFrame) : Nat :=
  (f.size / 16 + 1) * 16

/-- fn fix_binary: legalize one pseudo binary instruction. -/
def fix_binary (operator : Mcc.Binary) (op dst_op : PseudoOp)
    (stack_frame : StackFrame) : StackFrame × List X86 :=
  match operator, op, dst_op with
  | .Mult, op, .PseudoRegister dst_name =>
      let r1 := stack_frame.fix_operand op
      let r2 := r1.2.fix_by_name dst_name
      (r2.2,
        [X86.mov r2.1 (Op.Register .R11),
         X86.binary .Mult r1.1 (Op.Register .R11),
         X86.mov (Op.Register .R11) r2.1])
  | .Add, .PseudoRegister op_name, .PseudoRegister dst_name
  | .Sub, .PseudoRegister op_name, .PseudoRegister dst_name
  | .And, .PseudoRegister op_name, .PseudoRegister dst_name
  | .Xor, .PseudoRegister op_name, .PseudoRegister dst_name
  | .Or, .PseudoRegister op_name, .PseudoRegister dst_name =>
      let r1 := stack_frame.fix_by_name op_name
      let r2 := r1.2.fix_by_name dst_name
      (r2.2,
        [X86.mov r1.1 (Op.Register .R10),
         X86.binary operator (Op.Register .R10) r2.1])
  | .ShiftLeft, .Normal (Op.Imm v), dst
  | .ShiftRight, .Normal (Op.Imm v), dst =>
      let r := stack_frame.fix_operand dst
      (r.2, [X86.binary operator (Op.Imm v) r.1])
  | .ShiftLeft, op, dst
  | .ShiftRight, op, dst =>
      let r1 := stack_frame.fix_operand op
      let r2 := r1.2.fix_operand dst
      (r2.2,
        [X86.mov r1.1 (Op.Register .Cx),
         X86.binary operator (Op.Register .Cx) r2.1])
  | _, .PseudoRegister op_name, .Normal dst_op =>
      let r := stack_frame.fix_by_name op_name
      (r.2, [X86.binary operator r.1 dst_op])
  | _, .Normal op, .PseudoRegister dst_name =>
      let r := stack_frame.fix_by_name dst_name
      (r.2, [X86.binary operator op r.1])
  | _, .Normal op, .Normal dst_op =>
      (stack_frame, [X86.binary operator op dst_op])

/-- fn fix_instruction: legalize one pseudo-instruction, returning the
updated frame and the emitted real instructions in order. -/
def fix_instruction (op : Pseudo) (stack_frame : StackFrame) :
    StackFrame × List X86 :=
  match op with
  | .DeallocateStack bytes => (stack_frame, [X86.DeallocateStack bytes])
  | .Push val =>
      let r := stack_frame.fix_operand val
      match r.1 with
      | Op.Stack n =>
          (r.2,
            [X86.mov (Op.Stack n) (Op.Register .R10),
             X86.Push (Op.Register .R10)])
      | _ => (r.2, [X86.Push r.1])
  | .Call name => (stack_frame, [X86.Call name])
  | .Mov src dst =>
      let r1 := stack_frame.fix_operand src
      let r2 := r1.2.fix_operand dst
      match r1.1 with
      | Op.Stack n =>
          (r2.2,
            [X86.mov (Op.Stack n) (Op.Register .R10),
             X86.mov (Op.Register .R10) r2.1])
      | _ => (r2.2, [X86.mov r1.1 r2.1])
  | .Unary operator operand =>
      let r := stack_frame.fix_operand operand
      (r.2, [X86.Unary operator r.1])
  | .Binary operator op dst_op => fix_binary operator op dst_op stack_frame
  | .Idiv divisor =>
      let r := stack_frame.fix_operand divisor
      match r.1 with
      | Op.Imm value =>
          (r.2,
            [X86.mov (Op.Imm value) (Op.Register .R10),
             X86.Idiv (Op.Register .R10)])
      | _ => (r.2, [X86.Idiv r.1])
  | .AllocateStack n => (stack_frame, [X86.AllocateStack n])
  | .Ret => (stack_frame, [X86.Ret])
  | .Cdq => (stack_frame, [X86.Cdq])
  | .Cmp (.PseudoRegister left_name) (.PseudoRegister right_name) =>
      let r1 := stack_frame.fix_by_name left_name
      let r2 := r1.2.fix_by_name right_name
      (r2.2,
        [X86.mov r1.1 (Op.Register .R10),
         X86.cmp (Op.Register .R10) r2.1])
  | .Cmp left (.Normal (Op.Imm right_val)) =>
      let r := stack_frame.fix_operand left
      (r.2,
        [X86.mov (Op.Imm right_val) (Op.Register .R11),
         X86.cmp r.1 (Op.Register .R11)])
  | .Cmp left right =>
      let r1 := stack_frame.fix_operand left
      let r2 := r1.2.fix_operand right
      (r2.2, [X86.Cmp r1.1 r2.1])
  | .Jmp label => (stack_frame, [X86.Jmp label])
  | .Label name => (stack_frame, [X86.Label name])
  | .JmpCC condition label => (stack_frame, [X86.JmpCC condition label])
  | .SetCC condition op =>
      let r := stack_frame.fix_operand op
      (r.2, [X86.SetCC condition r.1])

/-- The driver loop of convert_function: feed each pseudo-instruction to the
legalizer with the shared frame, appending emitted instructions. -/
def runBody : List Pseudo → StackFrame → List X86 → StackFrame × List X86
  | [], stack_frame, out => (stack_frame, out)
  | op :: rest, stack_frame, out =>
      let r := fix_instruction op stack_frame
      runBody rest r.1 (out ++ r.2)

/-- The initial frame size convert_function seeds from the parameter count:
arg_bytes plus padding_bytes. -/
def stack_start (param_count : Nat) : Nat :=
  let arg_bytes := if param_count ≤ 6 then 0 else (param_count - 6) * 8
  let padding_bytes :=
    if 6 < param_count ∧ param_count % 2 ≠ 0 then 8 else 0
  arg_bytes + padding_bytes

/-- A function definition: name, parameters, instruction body. -/
structure FunctionDefinition (I : Type) where
  name : Identifier
  params : List Identifier
  body : List I
  deriving DecidableEq

/-- fn convert_function: lower one function body behind a placeholder
prologue, then patch or delete the placeholder. -/
def convert_function (f : FunctionDefinition Pseudo) :
    FunctionDefinition X86 :=
  let stack_frame := StackFrame.new (stack_start f.params.length)
  let r := runBody f.body stack_frame [X86.AllocateStack 0]
  let body :=
    if r.1.size = 0 then r.2.drop 1
    else r.2.set 0 (X86.AllocateStack r.1.rounded_size)
  { name := f.name, params := f.params, body := body }

/-- A program: an ordered collection of function definitions. -/
structure Program (I : Type) where
  functions : List (FunctionDefinition I)

/-- fn fix_ast: lower every function of the program in order. -/
def fix_ast (program : Program Pseudo) : Program X86 :=
  { functions := program.functions.map convert_function }

/-- Whether an operand is a stack slot. -/
def Op.isStack : Op → Bool
  | .Stack _ => true
  | _ => false

/-- Whether an operand is an immediate. -/
def Op.isImm : Op → Bool
  | .Imm _ => true
  | _ => false

/-- Whether an operand is the fixed shift-count register Cx. -/
def Op.isCx : Op → Bool
  | .Register .Cx => true
  | _ => false

/-- The addressing-mode restrictions the design document requires of every
emitted instruction: no two stack operands, divide never by an immediate,
multiply never into a stack slot, a shift count is an immediate or Cx, and
push never sources a stack slot. -/
def X86.claimLegal : X86 → Bool
  | .Mov src dst => !(src.isStack && dst.isStack)
  | .Cmp left right => !(left.isStack && right.isStack)
  | .Binary operator op dst_op =>
      !(op.isStack && dst_op.isStack) &&
        (match operator with
         | .Mult => !dst_op.isStack
         | .ShiftLeft => op.isImm || op.isCx
         | .ShiftRight => op.isImm || op.isCx
         | _ => true)
  | .Idiv divisor => !divisor.isImm
  | .Push val => !val.isStack
  | _ => true

/-- Whether a real instruction is a stack allocation. -/
def X86.isAllocateStack : X86 → Bool
  | .AllocateStack _ => true
  | _ => false

/-- Whether a real instruction is a memory-to-memory move. -/
def X86.isMemMemMov : X86 → Bool
  | .Mov src dst => src.isStack && dst.isStack
  | _ => false

/-- Whether a pseudo operand is an already-resolved stack slot. -/
def PseudoOp.noResolvedStack : PseudoOp → Bool
  | .Normal (Op.Stack _) => false
  | _ => true

/-- Whether a pseudo operand is a symbolic register. -/
def PseudoOp.isSymbolic : PseudoOp → Bool
  | .PseudoRegister _ => true
  | _ => false

/-- The identifiers a pseudo operand resolves through the allocator. -/
def PseudoOp.idents : PseudoOp → List Identifier
  | .PseudoRegister name => [name]
  | .Normal _ => []

/-- The operands of a pseudo-instruction, in source order. -/
def Pseudo.operands : Pseudo → List PseudoOp
  | .Mov src dst => [src, dst]
  | .Unary _ operand => [operand]
  | .Binary _ op dst_op => [op, dst_op]
  | .Idiv divisor => [divisor]
  | .Push val => [val]
  | .Cmp left right => [left, right]
  | .SetCC _ op => [op]
  | _ => []

/-- The identifiers one pseudo-instruction resolves through the allocator,
in resolution order. -/
def Pseudo.identSeq : Pseudo → List Identifier
  | .Mov src dst => src.idents ++ dst.idents
  | .Unary _ operand => operand.idents
  | .Binary _ op dst_op => op.idents ++ dst_op.idents
  | .Idiv divisor => divisor.idents
  | .Push val => val.idents
  | .Cmp left right => left.idents ++ right.idents
  | .SetCC _ op => op.idents
  | _ => []

/-- Whether a pseudo-instruction mentions a symbolic register. -/
def Pseudo.usesSymbolic (op : Pseudo) : Bool :=
  op.operands.any PseudoOp.isSymbolic

/-- Whether a pseudo-instruction is an explicit stack allocation. -/
def Pseudo.isAllocStack : Pseudo → Bool
  | .AllocateStack _ => true
  | _ => false

/-- Resolve a list of identifiers through the allocator in order, keeping
only the final frame. -/
def applyIds : List Identifier → StackFrame → StackFrame
  | [], stack_frame => stack_frame
  | x :: rest, stack_frame => applyIds rest (stack_frame.get x).2

/-- All identifiers a body resolves through the allocator, in order. -/
def bodyIds : List Pseudo → List Identifier
  | [] => []
  | op :: rest => op.identSeq ++ bodyIds rest

/-- First occurrences of a list of identifiers, skipping those in seen. -/
def firstUsesFrom (seen : List Identifier) :
    List Identifier → List Identifier
  | [] => []
  | x :: rest =>
      if x ∈ seen then firstUsesFrom seen rest
      else x :: firstUsesFrom (x :: seen) rest

/-- The first-use order of a list of identifiers. -/
def firstUses (ids : List Identifier) : List Identifier :=
  firstUsesFrom [] ids

theorem fix_operand_frame (f : StackFrame) (o : PseudoOp) :
    (f.fix_operand o).2 = applyIds o.idents f := by
  cases o <;> rfl

theorem applyIds_append (a b : List Identifier) (f : StackFrame) :
    applyIds (a ++ b) f = applyIds b (applyIds a f) := by
  induction a generalizing f with
  | nil => rfl
  | cons x rest ih => simp only [List.cons_append, applyIds]; exact ih _

theorem fix_instruction_frame (op : Pseudo) (f : StackFrame) :
    (fix_instruction op f).1 = applyIds op.identSeq f := by
  cases op with
  | Mov src dst =>
      rcases src with ⟨o1⟩ | n1 <;> rcases dst with ⟨o2⟩ | n2 <;>
        first
          | rfl
          | (cases o1 <;> rfl)
  | Unary operator operand => rcases operand with ⟨o⟩ | n <;> rfl
  | Binary operator op dst_op =>
      cases operator <;>
        rcases op with ⟨o1⟩ | n1 <;> rcases dst_op with ⟨o2⟩ | n2 <;>
          first
            | rfl
            | (cases o1 <;> rfl)
  | Idiv divisor =>
      rcases divisor with ⟨o⟩ | n <;> first | rfl | (cases o <;> rfl)
  | Cdq => rfl
  | AllocateStack n => rfl
  | DeallocateStack bytes => rfl
  | Push val =>
      rcases val with ⟨o⟩ | n <;> first | rfl | (cases o <;> rfl)
  | Call name => rfl
  | Ret => rfl
  | Cmp left right =>
      rcases left with ⟨o1⟩ | n1 <;> rcases right with ⟨o2⟩ | n2 <;>
        first
          | rfl
          | (cases o2 <;> rfl)
  | Jmp label => rfl
  | JmpCC condition label => rfl
  | SetCC condition op => rcases op with ⟨o⟩ | n <;> rfl
  | Label name => rfl

theorem runBody_out (body : List Pseudo) (f : StackFrame) (out : List X86) :
    runBody body f out
      = ((runBody body f []).1, out ++ (runBody body f []).2) := by
  induction body generalizing f out with
  | nil => simp [runBody]
  | cons op rest ih =>
      have h1 : runBody (op :: rest) f out
          = runBody rest (fix_instruction op f).1
              (out ++ (fix_instruction op f).2) := rfl
      have h2 : runBody (op :: rest) f []
          = runBody rest (fix_instruction op f).1
              ([] ++ (fix_instruction op f).2) := rfl
      rw [h1, h2, ih _ (out ++ (fix_instruction op f).2),
        ih _ ([] ++ (fix_instruction op f).2)]
      simp

theorem runBody_frame (body : List Pseudo) (f : StackFrame) (out : List X86) :
    (runBody body f out).1 = applyIds (bodyIds body) f := by
  induction body generalizing f out with
  | nil => rfl
  | cons op rest ih =>
      have h1 : runBody (op :: rest) f out
          = runBody rest (fix_instruction op f).1
              (out ++ (fix_instruction op f).2) := rfl
      rw [h1, ih]
      rw [show bodyIds (op :: rest) = op.identSeq ++ bodyIds rest from rfl]
      rw [applyIds_append, fix_instruction_frame]

theorem get_seen (f : StackFrame) (x : Identifier) (off : Nat)
    (h : lookupId f.map x = some off) : f.get x = (off, f) := by
  unfold StackFrame.get
  rw [h]

theorem get_fresh (f : StackFrame) (x : Identifier)
    (h : lookupId f.map x = none) :
    f.get x = (f.size + 4 + f.push_offset,
      { f with size := f.size + 4, map := (x, f.size + 4) :: f.map }) := by
  unfold StackFrame.get
  rw [h]

theorem get_push_offset (f : StackFrame) (x : Identifier) :
    ((f.get x).2).push_offset = f.push_offset := by
  rcases h : lookupId f.map x with _ | w
  · rw [get_fresh f x h]
  · rw [get_seen f x w h]

theorem applyIds_push_offset (ids : List Identifier) (f : StackFrame) :
    (applyIds ids f).push_offset = f.push_offset := by
  induction ids generalizing f with
  | nil => rfl
  | cons x rest ih =>
      rw [show applyIds (x :: rest) f = applyIds rest (f.get x).2 from rfl,
        ih, get_push_offset]

theorem get_lookup_mono (f : StackFrame) (y x : Identifier) (v : Nat)
    (h : lookupId f.map x = some v) :
    lookupId ((f.get y).2).map x = some v := by
  rcases hy : lookupId f.map y with _ | w
  · rw [get_fresh f y hy]
    by_cases hxy : x = y
    · subst hxy
      rw [h] at hy
      exact absurd hy (by simp)
    · simpa [lookupId, hxy] using h
  · rw [get_seen f y w hy]
    exact h

theorem applyIds_lookup_mono (ids : List Identifier) (f : StackFrame)
    (x : Identifier) (v : Nat) (h : lookupId f.map x = some v) :
    lookupId (applyIds ids f).map x = some v := by
  induction ids generalizing f with
  | nil => exact h
  | cons y rest ih => exact ih _ (get_lookup_mono f y x v h)

theorem applyIds_firstUsesFrom (ids : List Identifier) (f : StackFrame)
    (seen : List Identifier)
    (hseen : ∀ y, y ∈ seen ↔ (lookupId f.map y).isSome = true) :
    applyIds ids f = applyIds (firstUsesFrom seen ids) f := by
  induction ids generalizing f seen with
  | nil => rfl
  | cons x rest ih =>
      by_cases hx : x ∈ seen
      · obtain ⟨v, hv⟩ := Option.isSome_iff_exists.mp ((hseen x).mp hx)
        rw [show applyIds (x :: rest) f = applyIds rest (f.get x).2 from rfl]
        rw [get_seen f x v hv]
        rw [show firstUsesFrom seen (x :: rest) = firstUsesFrom seen rest from
          by simp [firstUsesFrom, hx]]
        exact ih f seen hseen
      · have hfx : lookupId f.map x = none := by
          rcases hq : lookupId f.map x with _ | w
          · rfl
          · exact absurd ((hseen x).mpr (by simp [hq])) hx
        rw [show applyIds (x :: rest) f = applyIds rest (f.get x).2 from rfl]
        rw [show firstUsesFrom seen (x :: rest)
            = x :: firstUsesFrom (x :: seen) rest from by simp [firstUsesFrom, hx]]
        rw [show applyIds (x :: firstUsesFrom (x :: seen) rest) f
            = applyIds (firstUsesFrom (x :: seen) rest) (f.get x).2 from rfl]
        apply ih
        intro y
        rw [get_fresh f x hfx]
        show y ∈ x :: seen ↔ (lookupId ((x, f.size + 4) :: f.map) y).isSome = true
        by_cases hyx : y = x
        · subst hyx
          simp [lookupId]
        · simp [lookupId, hyx, hseen y]

theorem fix_binary_legal (operator : Mcc.Binary) (op dst_op : PseudoOp)
    (f : StackFrame) (hop : op.noResolvedStack = true)
    (hdst : dst_op.noResolvedStack = true) :
    ∀ i ∈ (fix_binary operator op dst_op f).2, i.claimLegal = true := by
  cases operator <;>
    rcases op with (⟨v1⟩ | ⟨r1⟩ | ⟨k1⟩) | n1 <;>
      rcases dst_op with (⟨v2⟩ | ⟨r2⟩ | ⟨k2⟩) | n2 <;>
        simp_all [fix_binary, X86.claimLegal, Op.isStack, Op.isImm, Op.isCx,
          X86.mov, X86.binary, StackFrame.fix_by_name, StackFrame.fix_operand,
          PseudoOp.noResolvedStack]

theorem fix_instruction_legal (op : Pseudo) (f : StackFrame)
    (h : op.operands.all PseudoOp.noResolvedStack = true) :
    ∀ i ∈ (fix_instruction op f).2, i.claimLegal = true := by
  cases op with
  | Mov src dst =>
      have hs : src.noResolvedStack = true ∧ dst.noResolvedStack = true := by
        simpa [Pseudo.operands] using h
      rcases src with (⟨v1⟩ | ⟨r1⟩ | ⟨k1⟩) | n1 <;>
        rcases dst with (⟨v2⟩ | ⟨r2⟩ | ⟨k2⟩) | n2 <;>
          simp_all [fix_instruction, X86.claimLegal, Op.isStack,
            X86.mov, StackFrame.fix_by_name, StackFrame.fix_operand,
            PseudoOp.noResolvedStack]
  | Unary operator operand =>
      rcases operand with ⟨o⟩ | n <;>
        simp_all [fix_instruction, X86.claimLegal,
          StackFrame.fix_by_name, StackFrame.fix_operand]
  | Binary operator o d =>
      have hs : o.noResolvedStack = true ∧ d.noResolvedStack = true := by
        simpa [Pseudo.operands] using h
      exact fix_binary_legal operator o d f hs.1 hs.2
  | Idiv divisor =>
      have hs : divisor.noResolvedStack = true := by
        simpa [Pseudo.operands] using h
      rcases divisor with (⟨v⟩ | ⟨r⟩ | ⟨k⟩) | n <;>
        simp_all [fix_instruction, X86.claimLegal, Op.isStack, Op.isImm,
          X86.mov, StackFrame.fix_by_name, StackFrame.fix_operand,
          PseudoOp.noResolvedStack]
  | Cdq => simp [fix_instruction, X86.claimLegal]
  | AllocateStack n => simp [fix_instruction, X86.claimLegal]
  | DeallocateStack bytes => simp [fix_instruction, X86.claimLegal]
  | Push val =>
      have hs : val.noResolvedStack = true := by
        simpa [Pseudo.operands] using h
      rcases val with (⟨v⟩ | ⟨r⟩ | ⟨k⟩) | n <;>
        simp_all [fix_instruction, X86.claimLegal, Op.isStack,
          X86.mov, StackFrame.fix_by_name, StackFrame.fix_operand,
          PseudoOp.noResolvedStack]
  | Call name => simp [fix_instruction, X86.claimLegal]
  | Ret => simp [fix_instruction, X86.claimLegal]
  | Cmp left right =>
      have hs : left.noResolvedStack = true ∧ right.noResolvedStack = true := by
        simpa [Pseudo.operands] using h
      rcases left with (⟨v1⟩ | ⟨r1⟩ | ⟨k1⟩) | n1 <;>
        rcases right with (⟨v2⟩ | ⟨r2⟩ | ⟨k2⟩) | n2 <;>
          simp_all [fix_instruction, X86.claimLegal, Op.isStack,
            X86.mov, X86.cmp, StackFrame.fix_by_name, StackFrame.fix_operand,
            PseudoOp.noResolvedStack]
  | Jmp label => simp [fix_instruction, X86.claimLegal]
  | JmpCC condition label => simp [fix_instruction, X86.claimLegal]
  | SetCC condition o =>
      rcases o with ⟨o⟩ | n <;>
        simp_all [fix_instruction, X86.claimLegal,
          StackFrame.fix_by_name, StackFrame.fix_operand]
  | Label name => simp [fix_instruction, X86.claimLegal]

theorem runBody_legal (body : List Pseudo) (f : StackFrame)
    (h : ∀ op ∈ body, op.operands.all PseudoOp.noResolvedStack = true) :
    ∀ i ∈ (runBody body f []).2, i.claimLegal = true := by
  induction body generalizing f with
  | nil => simp [runBody]
  | cons op rest ih =>
      intro i hi
      have h1 : runBody (op :: rest) f []
          = runBody rest (fix_instruction op f).1
              ([] ++ (fix_instruction op f).2) := rfl
      rw [h1, runBody_out] at hi
      simp only [List.nil_append, Prod.snd, List.mem_append] at hi
      rcases hi with hi | hi
      · exact fix_instruction_legal op f (h op (by simp)) i hi
      · exact ih _ (fun o ho => h o (by simp [ho])) i hi

theorem fix_binary_no_alloc (operator : Mcc.Binary) (op dst_op : PseudoOp)
    (f : StackFrame) :
    ∀ i ∈ (fix_binary operator op dst_op f).2, i.isAllocateStack = false := by
  cases operator <;>
    rcases op with (⟨v1⟩ | ⟨r1⟩ | ⟨k1⟩) | n1 <;>
      rcases dst_op with (⟨v2⟩ | ⟨r2⟩ | ⟨k2⟩) | n2 <;>
        simp_all [fix_binary, X86.isAllocateStack, X86.mov, X86.binary,
          StackFrame.fix_by_name, StackFrame.fix_operand]

theorem fix_instruction_no_alloc (op : Pseudo) (f : StackFrame)
    (h : op.isAllocStack = false) :
    ∀ i ∈ (fix_instruction op f).2, i.isAllocateStack = false := by
  cases op with
  | Mov src dst =>
      rcases src with (⟨v1⟩ | ⟨r1⟩ | ⟨k1⟩) | n1 <;> rcases dst with ⟨o2⟩ | n2 <;>
        simp_all [fix_instruction, X86.isAllocateStack, X86.mov,
          StackFrame.fix_by_name, StackFrame.fix_operand]
  | Unary operator operand =>
      rcases operand with ⟨o⟩ | n <;>
        simp_all [fix_instruction, X86.isAllocateStack,
          StackFrame.fix_by_name, StackFrame.fix_operand]
  | Binary operator o d => exact fix_binary_no_alloc operator o d f
  | Idiv divisor =>
      rcases divisor with (⟨v⟩ | ⟨r⟩ | ⟨k⟩) | n <;>
        simp_all [fix_instruction, X86.isAllocateStack, X86.mov,
          StackFrame.fix_by_name, StackFrame.fix_operand]
  | Cdq => simp [fix_instruction, X86.isAllocateStack]
  | AllocateStack n => simp [Pseudo.isAllocStack] at h
  | DeallocateStack bytes => simp [fix_instruction, X86.isAllocateStack]
  | Push val =>
      rcases val with (⟨v⟩ | ⟨r⟩ | ⟨k⟩) | n <;>
        simp_all [fix_instruction, X86.isAllocateStack, X86.mov,
          StackFrame.fix_by_name, StackFrame.fix_operand]
  | Call name => simp [fix_instruction, X86.isAllocateStack]
  | Ret => simp [fix_instruction, X86.isAllocateStack]
  | Cmp left right =>
      rcases left with (⟨v1⟩ | ⟨r1⟩ | ⟨k1⟩) | n1 <;>
        rcases right with (⟨v2⟩ | ⟨r2⟩ | ⟨k2⟩) | n2 <;>
          simp_all [fix_instruction, X86.isAllocateStack, X86.mov, X86.cmp,
            StackFrame.fix_by_name, StackFrame.fix_operand]
  | Jmp label => simp [fix_instruction, X86.isAllocateStack]
  | JmpCC condition label => simp [fix_instruction, X86.isAllocateStack]
  | SetCC condition o =>
      rcases o with ⟨o⟩ | n <;>
        simp_all [fix_instruction, X86.isAllocateStack,
          StackFrame.fix_by_name, StackFrame.fix_operand]
  | Label name => simp [fix_instruction, X86.isAllocateStack]

theorem runBody_no_alloc (body : List Pseudo) (f : StackFrame)
    (h : ∀ op ∈ body, op.isAllocStack = false) :
    ∀ i ∈ (runBody body f []).2, i.isAllocateStack = false := by
  induction body generalizing f with
  | nil => simp [runBody]
  | cons op rest ih =>
      intro i hi
      have h1 : runBody (op :: rest) f []
          = runBody rest (fix_instruction op f).1
              ([] ++ (fix_instruction op f).2) := rfl
      rw [h1, runBody_out] at hi
      simp only [List.nil_append, List.mem_append] at hi
      rcases hi with hi | hi
      · exact fix_instruction_no_alloc op f (h op (by simp)) i hi
      · exact ih _ (fun o ho => h o (by simp [ho])) i hi

theorem idents_eq_nil (o : PseudoOp) (h : o.isSymbolic = false) :
    o.idents = [] := by
  cases o <;> simp_all [PseudoOp.isSymbolic, PseudoOp.idents]

theorem identSeq_eq_nil (op : Pseudo) (h : op.usesSymbolic = false) :
    op.identSeq = [] := by
  cases op <;>
    simp_all [Pseudo.usesSymbolic, Pseudo.operands, Pseudo.identSeq,
      idents_eq_nil]

theorem bodyIds_eq_nil (body : List Pseudo)
    (h : ∀ op ∈ body, op.usesSymbolic = false) : bodyIds body = [] := by
  induction body with
  | nil => rfl
  | cons op rest ih =>
      rw [show bodyIds (op :: rest) = op.identSeq ++ bodyIds rest from rfl,
        identSeq_eq_nil op (h op (by simp)),
        ih (fun o ho => h o (by simp [ho]))]
      rfl

theorem convert_function_name (f : FunctionDefinition Pseudo) :
    (convert_function f).name = f.name := rfl

theorem convert_function_params (f : FunctionDefinition Pseudo) :
    (convert_function f).params = f.params := rfl

theorem convert_function_body (f : FunctionDefinition Pseudo) :
    (convert_function f).body =
      (if (runBody f.body
            (StackFrame.new (stack_start f.params.length)) []).1.size = 0
       then (runBody f.body (StackFrame.new (stack_start f.params.length)) []).2
       else X86.AllocateStack
              (runBody f.body
                (StackFrame.new (stack_start f.params.length)) []).1.rounded_size
            :: (runBody f.body
                (StackFrame.new (stack_start f.params.length)) []).2) := by
  simp only [convert_function]
  rw [runBody_out]
  simp

/-- C1 counterexample: the claim as stated fails on a body containing a
pseudo multiply whose destination is an already-resolved stack slot — the
lowered body is a multiply writing directly to memory, violating both the
two-memory-operand rule and the multiply-destination rule. -/
theorem mult_stack_dest_leak :
    (convert_function
        { name := "f", params := [],
          body := [Pseudo.Binary Binary.Mult (PseudoOp.Normal (Op.Imm 2))
            (PseudoOp.Normal (Op.Stack 4))] }).body
      = [X86.Binary Binary.Mult (Op.Imm 2) (Op.Stack 4)]
    ∧ ¬ (∀ i ∈ (convert_function
        { name := "f", params := [],
          body := [Pseudo.Binary Binary.Mult (PseudoOp.Normal (Op.Imm 2))
            (PseudoOp.Normal (Op.Stack 4))] }).body,
        i.claimLegal = true) := by decide

/-- C1 amended: for every function whose pseudo body contains no
already-resolved stack-slot operand (symbolic registers, immediates and
hardware registers only, as produced by the generator), every instruction
of the lowered body satisfies all five addressing-mode restrictions: no two
stack operands, Idiv never an immediate, Mult never a stack destination,
shift counts an immediate or Cx, Push never a stack slot. -/
theorem lowering_legal_of_no_resolved_stack (f : FunctionDefinition Pseudo)
    (h : ∀ op ∈ f.body, op.operands.all PseudoOp.noResolvedStack = true) :
    ∀ i ∈ (convert_function f).body, i.claimLegal = true := by
  intro i hi
  rw [convert_function_body] at hi
  by_cases hz :
    (runBody f.body (StackFrame.new (stack_start f.params.length)) []).1.size
      = 0
  · rw [if_pos hz] at hi
    exact runBody_legal f.body _ h i hi
  · rw [if_neg hz] at hi
    rcases List.mem_cons.mp hi with hi | hi
    · subst hi; rfl
    · exact runBody_legal f.body _ h i hi

/-- Witness for the amended C1 at a concrete two-instruction body. -/
theorem lowering_legal_of_no_resolved_stack_witness :
    (∀ op ∈ [Pseudo.Mov (PseudoOp.Normal (Op.Imm 1))
          (PseudoOp.PseudoRegister "a"),
        Pseudo.Binary Binary.Mult (PseudoOp.Normal (Op.Imm 2))
          (PseudoOp.PseudoRegister "a")],
      op.operands.all PseudoOp.noResolvedStack = true)
    ∧ ∀ i ∈ (convert_function
        { name := "f", params := [],
          body := [Pseudo.Mov (PseudoOp.Normal (Op.Imm 1))
              (PseudoOp.PseudoRegister "a"),
            Pseudo.Binary Binary.Mult (PseudoOp.Normal (Op.Imm 2))
              (PseudoOp.PseudoRegister "a")] }).body,
        i.claimLegal = true :=
  ⟨by decide, lowering_legal_of_no_resolved_stack _ (by decide)⟩

/-- C2 counterexample: with an outstanding push offset of 8, resolving the
already-seen identifier x recorded at offset 4 returns the bare 4, not the
push-corrected 4 + 8 the claim requires. -/
theorem resolve_seen_ignores_push_offset :
    lookupId (StackFrame.mk [("x", 4)] 8 8).map "x" = some 4
    ∧ (StackFrame.mk [("x", 4)] 8 8).push_offset = 8
    ∧ (StackFrame.get (StackFrame.mk [("x", 4)] 8 8) "x").1 = 4
    ∧ (4 : Nat) ≠ 4 + 8 := by decide

/-- C2 amended: resolving a not-yet-seen identifier extends the frame size
by 4, records the identifier at the new size, and returns the new offset
plus the outstanding push offset; resolving an already-seen identifier
returns the previously recorded offset with no push-offset correction. -/
theorem resolve_spec (f : StackFrame) (x : Identifier) :
    (∀ off, lookupId f.map x = some off → f.get x = (off, f))
    ∧ (lookupId f.map x = none →
        f.get x = (f.size + 4 + f.push_offset,
          { f with size := f.size + 4, map := (x, f.size + 4) :: f.map })) :=
  ⟨fun off h => get_seen f x off h, fun h => get_fresh f x h⟩

/-- Witness for the amended C2: one seen lookup, one fresh lookup. -/
theorem resolve_spec_witness :
    StackFrame.get (StackFrame.mk [("x", 4)] 8 3) "x"
      = (4, StackFrame.mk [("x", 4)] 8 3)
    ∧ StackFrame.get (StackFrame.mk [] 8 3) "x"
      = (15, StackFrame.mk [("x", 12)] 12 3) :=
  ⟨(resolve_spec (StackFrame.mk [("x", 4)] 8 3) "x").1 4 (by decide),
   by
     have h := (resolve_spec (StackFrame.mk [] 8 3) "x").2 (by decide)
     simpa using h⟩

/-- C3 counterexample: lowering a pseudo push leaves the frame's push
offset at 0 instead of increasing it by 8. -/
theorem push_lowering_keeps_offset :
    ((fix_instruction (Pseudo.Push (PseudoOp.Normal (Op.Imm 1)))
        (StackFrame.new 0)).1).push_offset = 0
    ∧ (0 : Nat) ≠ 8 := by decide

/-- C3 amended: the pass never invokes record_push or record_pop, so
lowering any instruction (pushes included) leaves the push offset
unchanged; record_push itself would add 8; and an identifier already
recorded before any instruction sequence (push and pop sequences included)
still resolves to the same recorded offset afterwards. -/
theorem push_offset_invariant (op : Pseudo) (f : StackFrame)
    (x : Identifier) (off : Nat) (ops : List Pseudo) :
    ((fix_instruction op f).1.push_offset = f.push_offset)
    ∧ (StackFrame.record_push f = { f with push_offset := f.push_offset + 8 })
    ∧ (lookupId f.map x = some off →
        (runBody ops f []).1.get x = (off, (runBody ops f []).1)) := by
  refine ⟨?_, rfl, ?_⟩
  · rw [fix_instruction_frame, applyIds_push_offset]
  · intro h
    have hl : lookupId ((runBody ops f []).1).map x = some off := by
      rw [runBody_frame]
      exact applyIds_lookup_mono _ f x off h
    exact get_seen _ x off hl

/-- Witness for the amended C3 at a concrete push and a concrete frame. -/
theorem push_offset_invariant_witness :
    ((fix_instruction (Pseudo.Push (PseudoOp.Normal (Op.Imm 7)))
        (StackFrame.mk [("x", 4)] 4 0)).1.push_offset
      = (StackFrame.mk [("x", 4)] 4 0).push_offset)
    ∧ ((runBody [Pseudo.Push (PseudoOp.PseudoRegister "y")]
          (StackFrame.mk [("x", 4)] 4 0) []).1.get "x"
        = (4, (runBody [Pseudo.Push (PseudoOp.PseudoRegister "y")]
            (StackFrame.mk [("x", 4)] 4 0) []).1)) := by
  have h := push_offset_invariant (Pseudo.Push (PseudoOp.Normal (Op.Imm 7)))
    (StackFrame.mk [("x", 4)] 4 0) "x" 4
    [Pseudo.Push (PseudoOp.PseudoRegister "y")]
  exact ⟨h.1, h.2.2 (by decide)⟩

/-- C4 counterexample: a body allocating four slots reaches a running size
of exactly 16, already a multiple of 16, yet the prologue allocates 32
bytes, not the unchanged 16 the claim requires. -/
theorem rounding_adds_block_at_multiple :
    (runBody [Pseudo.Mov (PseudoOp.Normal (Op.Imm 1)) (PseudoOp.PseudoRegister "a"),
        Pseudo.Mov (PseudoOp.Normal (Op.Imm 1)) (PseudoOp.PseudoRegister "b"),
        Pseudo.Mov (PseudoOp.Normal (Op.Imm 1)) (PseudoOp.PseudoRegister "c"),
        Pseudo.Mov (PseudoOp.Normal (Op.Imm 1)) (PseudoOp.PseudoRegister "d")]
      (StackFrame.new 0) []).1.size = 16
    ∧ (convert_function
        { name := "f", params := [],
          body := [Pseudo.Mov (PseudoOp.Normal (Op.Imm 1)) (PseudoOp.PseudoRegister "a"),
            Pseudo.Mov (PseudoOp.Normal (Op.Imm 1)) (PseudoOp.PseudoRegister "b"),
            Pseudo.Mov (PseudoOp.Normal (Op.Imm 1)) (PseudoOp.PseudoRegister "c"),
            Pseudo.Mov (PseudoOp.Normal (Op.Imm 1)) (PseudoOp.PseudoRegister "d")] }).body.head?
      = some (X86.AllocateStack 32)
    ∧ (32 : Nat) ≠ 16 := by decide

/-- C4 amended: a nonzero final running size s yields a prologue allocation
of (s / 16 + 1) * 16, which is always a multiple of 16, equals the round-up
of s to a multiple of 16 when s is not already one, and equals s + 16 when
s is already a multiple of 16. -/
theorem prologue_size_spec (f : FunctionDefinition Pseudo)
    (hz : (runBody f.body
        (StackFrame.new (stack_start f.params.length)) []).1.size ≠ 0) :
    ((convert_function f).body.head?
      = some (X86.AllocateStack
          (((runBody f.body
              (StackFrame.new (stack_start f.params.length)) []).1.size / 16 + 1)
            * 16)))
    ∧ ((((runBody f.body
          (StackFrame.new (stack_start f.params.length)) []).1.size / 16 + 1)
        * 16) % 16 = 0)
    ∧ ((runBody f.body
          (StackFrame.new (stack_start f.params.length)) []).1.size % 16 ≠ 0 →
        (((runBody f.body
            (StackFrame.new (stack_start f.params.length)) []).1.size / 16 + 1)
          * 16)
        = (((runBody f.body
            (StackFrame.new (stack_start f.params.length)) []).1.size + 15) / 16)
          * 16)
    ∧ ((runBody f.body
          (StackFrame.new (stack_start f.params.length)) []).1.size % 16 = 0 →
        (((runBody f.body
            (StackFrame.new (stack_start f.params.length)) []).1.size / 16 + 1)
          * 16)
        = (runBody f.body
            (StackFrame.new (stack_start f.params.length)) []).1.size + 16) := by
  refine ⟨?_, by omega, by omega, by omega⟩
  rw [convert_function_body, if_neg hz]
  rfl

/-- Witness for the amended C4 at a one-slot function (size 4, prologue 16). -/
theorem prologue_size_spec_witness :
    ((convert_function
        { name := "f", params := [],
          body := [Pseudo.Mov (PseudoOp.Normal (Op.Imm 1))
            (PseudoOp.PseudoRegister "a")] }).body.head?
      = some (X86.AllocateStack 16))
    ∧ ((16 : Nat) % 16 = 0) := by
  have h := prologue_size_spec
    { name := "f", params := [],
      body := [Pseudo.Mov (PseudoOp.Normal (Op.Imm 1))
        (PseudoOp.PseudoRegister "a")] } (by decide)
  refine ⟨?_, by decide⟩
  have h1 := h.1
  simpa using h1

/-- C5 counterexample: a function with seven parameters and an empty body
uses no symbolic registers, yet its lowered body is a 32-byte
AllocateStack (the seeded stack-argument bytes force a nonzero size). -/
theorem seven_params_allocates :
    (∀ op ∈ ([] : List Pseudo), op.usesSymbolic = false)
    ∧ (convert_function
        { name := "f", params := ["p1", "p2", "p3", "p4", "p5", "p6", "p7"],
          body := [] }).body
      = [X86.AllocateStack 32]
    ∧ ((convert_function
        { name := "f", params := ["p1", "p2", "p3", "p4", "p5", "p6", "p7"],
          body := [] }).body.any X86.isAllocateStack = true) := by decide

/-- C5 amended: a function with at most six parameters whose body uses no
symbolic registers and contains no explicit stack-allocation
pseudo-instruction lowers to a body with no AllocateStack at all: the
zero-size placeholder is removed entirely rather than emitted. -/
theorem no_alloc_when_no_symbolic (f : FunctionDefinition Pseudo)
    (hp : f.params.length ≤ 6)
    (hsym : ∀ op ∈ f.body, op.usesSymbolic = false)
    (halloc : ∀ op ∈ f.body, op.isAllocStack = false) :
    ∀ i ∈ (convert_function f).body, i.isAllocateStack = false := by
  intro i hi
  rw [convert_function_body] at hi
  have hss : stack_start f.params.length = 0 := by
    simp [stack_start, hp, Nat.not_lt.mpr hp]
  have hframe :
      (runBody f.body (StackFrame.new (stack_start f.params.length)) []).1
        = StackFrame.new (stack_start f.params.length) := by
    rw [runBody_frame, bodyIds_eq_nil f.body hsym]
    rfl
  have hz :
      (runBody f.body
        (StackFrame.new (stack_start f.params.length)) []).1.size = 0 := by
    rw [hframe, hss]
    rfl
  rw [if_pos hz] at hi
  exact runBody_no_alloc f.body _ halloc i hi

/-- Witness for the amended C5 at a body consisting of a bare return. -/
theorem no_alloc_when_no_symbolic_witness :
    ((convert_function
        { name := "f", params := [], body := [Pseudo.Ret] }).body.all
      (fun i => !i.isAllocateStack)) = true := by
  have h := no_alloc_when_no_symbolic
    { name := "f", params := [], body := [Pseudo.Ret] }
    (by decide) (by decide) (by decide)
  rw [List.all_eq_true]
  intro i hi
  simp [h i hi]

/-- C6: the seeded initial frame size equals max(0, n - 6) * 8 bytes of
stack-passed arguments plus 8 bytes of padding exactly when that
stack-argument count is odd (Nat subtraction realizes the max); in
particular 8 parameters seed 16 bytes with no padding and 7 parameters
seed 8 + 8 = 16 bytes; and a frame created with that size starts at it
before any instruction is lowered. -/
theorem stack_seed_spec :
    (∀ n : Nat, stack_start n
      = (n - 6) * 8 + (if 6 < n ∧ (n - 6) % 2 = 1 then 8 else 0))
    ∧ stack_start 8 = 16
    ∧ stack_start 7 = 16
    ∧ (∀ s : Nat, (StackFrame.new s).size = s ∧ (StackFrame.new s).map = []) := by
  refine ⟨?_, rfl, rfl, fun s => ⟨rfl, rfl⟩⟩
  intro n
  simp only [stack_start]
  split_ifs <;> omega

/-- C7: a pseudo move whose source and destination both resolve to stack
slots lowers to exactly the two-instruction sequence through the scratch
register R10, and the swap scenario mov reg(x)→reg(y); mov reg(y)→reg(x)
lowers to exactly four real instructions, none a memory-to-memory move. -/
theorem mov_both_stack_two_instructions :
    (∀ (f : StackFrame) (src dst : PseudoOp) (a b : Nat),
      (f.fix_operand src).1 = Op.Stack a →
      ((f.fix_operand src).2.fix_operand dst).1 = Op.Stack b →
      (fix_instruction (Pseudo.Mov src dst) f).2
        = [X86.Mov (Op.Stack a) (Op.Register Register.R10),
           X86.Mov (Op.Register Register.R10) (Op.Stack b)])
    ∧ ((runBody
          [Pseudo.Mov (PseudoOp.PseudoRegister "x") (PseudoOp.PseudoRegister "y"),
           Pseudo.Mov (PseudoOp.PseudoRegister "y") (PseudoOp.PseudoRegister "x")]
          (StackFrame.new 0) []).2
        = [X86.Mov (Op.Stack 4) (Op.Register Register.R10),
           X86.Mov (Op.Register Register.R10) (Op.Stack 8),
           X86.Mov (Op.Stack 8) (Op.Register Register.R10),
           X86.Mov (Op.Register Register.R10) (Op.Stack 4)]
       ∧ ∀ i ∈ (runBody
          [Pseudo.Mov (PseudoOp.PseudoRegister "x") (PseudoOp.PseudoRegister "y"),
           Pseudo.Mov (PseudoOp.PseudoRegister "y") (PseudoOp.PseudoRegister "x")]
          (StackFrame.new 0) []).2, i.isMemMemMov = false) := by
  constructor
  · intro f src dst a b h1 h2
    simp only [fix_instruction]
    rw [h1, h2]
    rfl
  · exact ⟨by decide, by decide⟩

/-- Witness for C7 at a concrete both-stack move. -/
theorem mov_both_stack_two_instructions_witness :
    (fix_instruction
        (Pseudo.Mov (PseudoOp.PseudoRegister "x") (PseudoOp.PseudoRegister "y"))
        (StackFrame.mk [("x", 4), ("y", 8)] 8 0)).2
      = [X86.Mov (Op.Stack 4) (Op.Register Register.R10),
         X86.Mov (Op.Register Register.R10) (Op.Stack 8)] :=
  mov_both_stack_two_instructions.1
    (StackFrame.mk [("x", 4), ("y", 8)] 8 0)
    (PseudoOp.PseudoRegister "x") (PseudoOp.PseudoRegister "y") 4 8
    (by decide) (by decide)

/-- C8 counterexample: a pseudo move from a stack slot into the hardware
register Ax — a shape matching none of the legalization table's illegal
cases — lowers to two instructions, not one. -/
theorem mov_stack_to_register_splits :
    (fix_instruction
        (Pseudo.Mov (PseudoOp.Normal (Op.Stack 4))
          (PseudoOp.Normal (Op.Register Register.Ax)))
        (StackFrame.new 0)).2
      = [X86.Mov (Op.Stack 4) (Op.Register Register.R10),
         X86.Mov (Op.Register Register.R10) (Op.Register Register.Ax)]
    ∧ ((fix_instruction
        (Pseudo.Mov (PseudoOp.Normal (Op.Stack 4))
          (PseudoOp.Normal (Op.Register Register.Ax)))
        (StackFrame.new 0)).2).length ≠ 1 := by decide

/-- C8 amended: a pseudo move lowers to exactly one instruction precisely
when its resolved source is not a stack slot — a stack-slot source splits
into two instructions even when the destination is a hardware register —
and every pseudo-instruction with no legalization case (unary, setcc,
jumps, label, call, ret, cdq, explicit stack adjustments) lowers
one-to-one. -/
theorem mov_one_to_one_iff_src_not_stack :
    (∀ (f : StackFrame) (src dst : PseudoOp),
      (fix_instruction (Pseudo.Mov src dst) f).2.length = 1
        ↔ ((f.fix_operand src).1).isStack = false)
    ∧ (∀ (f : StackFrame) (src dst : PseudoOp),
        ((f.fix_operand src).1).isStack = false →
        (fix_instruction (Pseudo.Mov src dst) f).2
          = [X86.Mov (f.fix_operand src).1
              ((f.fix_operand src).2.fix_operand dst).1])
    ∧ (∀ (f : StackFrame) (operator : UnaryOp) (o : PseudoOp),
        (fix_instruction (Pseudo.Unary operator o) f).2.length = 1)
    ∧ (∀ (f : StackFrame) (c : Condition) (o : PseudoOp),
        (fix_instruction (Pseudo.SetCC c o) f).2.length = 1)
    ∧ (∀ (f : StackFrame) (l : Identifier),
        (fix_instruction (Pseudo.Jmp l) f).2.length = 1
        ∧ (fix_instruction (Pseudo.Label l) f).2.length = 1
        ∧ (fix_instruction (Pseudo.Call l) f).2.length = 1)
    ∧ (∀ (f : StackFrame) (c : Condition) (l : Identifier),
        (fix_instruction (Pseudo.JmpCC c l) f).2.length = 1)
    ∧ (∀ (f : StackFrame) (n : Nat),
        (fix_instruction (Pseudo.AllocateStack n) f).2.length = 1
        ∧ (fix_instruction (Pseudo.DeallocateStack n) f).2.length = 1)
    ∧ (∀ f : StackFrame,
        (fix_instruction Pseudo.Ret f).2.length = 1
        ∧ (fix_instruction Pseudo.Cdq f).2.length = 1) := by
  refine ⟨?_, ?_, fun f operator o => rfl, fun f c o => rfl,
    fun f l => ⟨rfl, rfl, rfl⟩, fun f c l => rfl, fun f n => ⟨rfl, rfl⟩,
    fun f => ⟨rfl, rfl⟩⟩
  · intro f src dst
    rcases src with (⟨v⟩ | ⟨r⟩ | ⟨k⟩) | n <;>
      simp [fix_instruction, StackFrame.fix_operand, StackFrame.fix_by_name,
        Op.isStack, X86.mov]
  · intro f src dst h
    rcases src with (⟨v⟩ | ⟨r⟩ | ⟨k⟩) | n <;>
      simp_all [fix_instruction, StackFrame.fix_operand,
        StackFrame.fix_by_name, Op.isStack, X86.mov]

/-- Witness for the amended C8 at a concrete immediate-source move. -/
theorem mov_one_to_one_iff_src_not_stack_witness :
    (fix_instruction
        (Pseudo.Mov (PseudoOp.Normal (Op.Imm 3)) (PseudoOp.PseudoRegister "a"))
        (StackFrame.new 0)).2
      = [X86.Mov (Op.Imm 3) (Op.Stack 4)] := by
  have h := mov_one_to_one_iff_src_not_stack.2.1 (StackFrame.new 0)
    (PseudoOp.Normal (Op.Imm 3)) (PseudoOp.PseudoRegister "a") (by decide)
  exact h.trans (by decide)

/-- C9: lowering is deterministic — equal input programs give equal
outputs — the frame a body produces is a function of only the sequence of
identifiers the body resolves through the allocator, and any two identifier
sequences with the same first-use order produce identical frames (hence
identical slot offsets for every symbolic register). -/
theorem lowering_deterministic :
    (∀ p q : Program Pseudo, p = q → fix_ast p = fix_ast q)
    ∧ (∀ (body : List Pseudo) (f : StackFrame) (out : List X86),
        (runBody body f out).1 = applyIds (bodyIds body) f)
    ∧ (∀ (ids1 ids2 : List Identifier) (s : Nat),
        firstUses ids1 = firstUses ids2 →
        applyIds ids1 (StackFrame.new s) = applyIds ids2 (StackFrame.new s)) := by
  refine ⟨fun p q h => by rw [h], runBody_frame, ?_⟩
  intro ids1 ids2 s h
  have hempty : ∀ y : Identifier,
      y ∈ ([] : List Identifier)
        ↔ (lookupId (StackFrame.new s).map y).isSome = true := by
    intro y
    simp [StackFrame.new, lookupId]
  rw [applyIds_firstUsesFrom ids1 (StackFrame.new s) [] hempty,
    applyIds_firstUsesFrom ids2 (StackFrame.new s) [] hempty]
  rw [show firstUsesFrom [] ids1 = firstUses ids1 from rfl,
    show firstUsesFrom [] ids2 = firstUses ids2 from rfl, h]

/-- Witness for C9: two resolution sequences with the same first-use order
produce the same frame. -/
theorem lowering_deterministic_witness :
    fix_ast { functions := [] } = fix_ast { functions := [] }
    ∧ applyIds ["a", "b", "a"] (StackFrame.new 0)
        = applyIds ["a", "a", "b"] (StackFrame.new 0) :=
  ⟨lowering_deterministic.1 { functions := [] } { functions := [] } rfl,
   lowering_deterministic.2.2 ["a", "b", "a"] ["a", "a", "b"] 0 (by decide)⟩

/-- C10: lowering preserves everything but the bodies — the output has the
same number of functions in the same order, and each keeps its name and
parameter list. -/
theorem fix_ast_preserves_structure (p : Program Pseudo) (i : Nat) :
    (fix_ast p).functions.length = p.functions.length
    ∧ ((fix_ast p).functions[i]?).map FunctionDefinition.name
        = (p.functions[i]?).map FunctionDefinition.name
    ∧ ((fix_ast p).functions[i]?).map FunctionDefinition.params
        = (p.functions[i]?).map FunctionDefinition.params := by
  refine ⟨by simp [fix_ast], ?_, ?_⟩ <;>
  · simp only [fix_ast, List.getElem?_map]
    cases p.functions[i]? <;>
      simp [convert_function_name, convert_function_params]

end Mcc
